import Mathlib

/-!
Verification of the bounded thread-safe FIFO queue of this repository.

The repository contains three near-identical implementations of a
fixed-capacity circular-buffer queue guarded by one mutex and two
condition variables:

* `safe_queue<T>` declared in `src/enqueue.h`, defined in `src/enqueue.cpp`
  (fields `queue_data`, `maximum_capacity`, `current_size`, `first`, `last`),
  embedded below in namespace `EnqueueImpl`;
* `safe_queue<T>` in `src/queue.cpp`
  (fields `queue_size`, `maximum_capacity`, `enqueue_element`, `first`,
  `last`), embedded in namespace `QueueCpp`;
* `ThreadSafeQueue<T>` in `src/queue.h`
  (fields `buffer`, `capacity`, `count`, `front`, `rear`), embedded in
  namespace `QueueH`.

We embed the sequential (single-thread, no concurrent interleaving)
semantics of each implementation shallowly.  All mutation in the C++ code
happens inside one critical section, so a sequential execution is a
sequence of atomic state transformations:

* the blocking `push`/`pop` wait on a condition variable; with no other
  thread running, the awaited predicate can never change while waiting,
  so the operation completes iff the predicate holds at entry and blocks
  forever otherwise.  We model them as `Option`-valued: `none` models the
  permanently blocked call.
* the timed `push`/`pop` use `wait_for` with a predicate; again no other
  thread can make the predicate true during the wait, so regardless of the
  timeout value the call succeeds iff the predicate holds at entry and
  otherwise throws `std::runtime_error` after the wait.  We model the
  thrown exceptions by the error conditions `PushTimeout`
  ("Push timeout - queue is full") and `PopTimeout`
  ("Pop timeout - queue is empty").

The C++ buffer `new T[maximum_capacity]` is modelled as a `List T` of
length `maximum_capacity` whose slots start at an arbitrary default value
(`new T[n]` default-initialises; no claim ever reads an unwritten slot).
`size_t` indices stay in `[0, capacity)` through the modular increments,
so plain `Nat` models them exactly (no overflow is reachable).
-/

/-- The two timeout error conditions thrown by the timed operations
(`std::runtime_error` with the messages
"Push timeout - queue is full" and "Pop timeout - queue is empty"). -/
inductive QueueError where
  | PushTimeout
  | PopTimeout
deriving DecidableEq, Repr

/-- One call of the queue API, the argument of the call included.  This is
the alphabet of sequential call sequences used to state the trace
properties of §8 of the spec. -/
inductive QOp (T : Type) where
  | size
  | empty
  | full
  | push (x : T)
  | push_timed (x : T) (timeout : Int)
  | pop
  | pop_timed (timeout : Int)
deriving Repr, DecidableEq

/-- Observable outcome of one call:  `natR`/`boolR` for the queries and
the `true` returned by a successful timed push, `itemR` for the value
returned by the blocking pop, `unitR` for the void return of the blocking
push, `popOutR` for a successful timed pop (returns `true` and writes the
value into the out-parameter), `errR` for a thrown timeout error, and
`blockedR` for a blocking call that parks forever because no other thread
can ever satisfy its wait predicate. -/
inductive QRes (T : Type) where
  | natR (n : Nat)
  | boolR (b : Bool)
  | itemR (x : T)
  | unitR
  | popOutR (x : T)
  | errR (e : QueueError)
  | blockedR
deriving Repr, DecidableEq

/-- Whether the outcome is a forever-parked blocking call. -/
def QRes.isBlocked {T : Type} : QRes T → Bool
  | QRes.blockedR => true
  | _ => false

namespace EnqueueImpl

/-- State of `safe_queue<T>` from `src/enqueue.h` / `src/enqueue.cpp`:
`queue_data` is the backing array, `maximum_capacity` its length,
`current_size` the number of occupied slots, `first` the read index and
`last` the write index. -/
structure safe_queue (T : Type) where
  queue_data : List T
  maximum_capacity : Nat
  current_size : Nat
  first : Nat
  last : Nat
deriving Repr, DecidableEq

variable {T : Type}

/-- Constructor `safe_queue(size_t max_capacity)` (src/enqueue.cpp:12-16):
allocates `new T[maximum_capacity]` (slots default-initialised) and zeroes
`current_size`, `first`, `last`. -/
def safe_queue.mkQueue (T : Type) [Inhabited T] (max_capacity : Nat) : safe_queue T :=
  { queue_data := List.replicate max_capacity default
    maximum_capacity := max_capacity
    current_size := 0
    first := 0
    last := 0 }

/-- `size()` (src/enqueue.cpp:34-38): returns `current_size` under the lock. -/
def safe_queue.size (s : safe_queue T) : Nat :=
  s.current_size

/-- `empty()` (src/enqueue.cpp:47-51): `current_size == 0` under the lock. -/
def safe_queue.empty (s : safe_queue T) : Bool :=
  s.current_size == 0

/-- `full()` (src/enqueue.cpp:60-64): `current_size == maximum_capacity`
under the lock. -/
def safe_queue.full (s : safe_queue T) : Bool :=
  s.current_size == s.maximum_capacity

/-- Blocking `push(const T&)` (src/enqueue.cpp:72-82): waits until
`current_size < maximum_capacity`, then stores at `last`, advances
`last = (last + 1) % maximum_capacity` and increments `current_size`.
Sequentially the wait can never be satisfied later, so a call on a full
queue blocks forever: `none`. -/
def safe_queue.push (s : safe_queue T) (item : T) : Option (safe_queue T) :=
  if s.current_size < s.maximum_capacity then
    some { s with
      queue_data := s.queue_data.set s.last item
      last := (s.last + 1) % s.maximum_capacity
      current_size := s.current_size + 1 }
  else
    none

/-- Timed `push(const T&, const std::chrono::milliseconds&)`
(src/enqueue.cpp:93-107): `wait_for` on `current_size < maximum_capacity`.
Sequentially the predicate cannot become true during the wait, so for every
timeout (positive, zero or negative, in milliseconds, modelled as `Int`)
the call succeeds and returns `true` iff the predicate holds at entry, and
otherwise throws the `PushTimeout` error leaving the state untouched. -/
def safe_queue.push_timed (s : safe_queue T) (item : T) (timeout : Int) :
    Except QueueError Bool × safe_queue T :=
  if s.current_size < s.maximum_capacity then
    (Except.ok true,
      { s with
        queue_data := s.queue_data.set s.last item
        last := (s.last + 1) % s.maximum_capacity
        current_size := s.current_size + 1 })
  else
    (Except.error QueueError.PushTimeout, s)

/-- Blocking `pop()` (src/enqueue.cpp:115-126): waits until
`current_size > 0`, then reads the slot at `first`, advances
`first = (first + 1) % maximum_capacity` and decrements `current_size`,
returning the item.  A call on an empty queue blocks forever: `none`. -/
def safe_queue.pop [Inhabited T] (s : safe_queue T) : Option (T × safe_queue T) :=
  if s.current_size > 0 then
    some (s.queue_data.getD s.first default,
      { s with
        first := (s.first + 1) % s.maximum_capacity
        current_size := s.current_size - 1 })
  else
    none

/-- Timed `pop(T&, const std::chrono::milliseconds&)`
(src/enqueue.cpp:137-151): `wait_for` on `current_size > 0`; on success
writes the popped item into the out-parameter `item` and returns `true`;
on timeout throws the `PopTimeout` error, leaving both the out-parameter
and the queue state untouched.  The triple returned is
(result, value of the out-parameter after the call, queue state after). -/
def safe_queue.pop_timed [Inhabited T] (s : safe_queue T) (item : T) (timeout : Int) :
    Except QueueError Bool × T × safe_queue T :=
  if s.current_size > 0 then
    (Except.ok true, s.queue_data.getD s.first default,
      { s with
        first := (s.first + 1) % s.maximum_capacity
        current_size := s.current_size - 1 })
  else
    (Except.error QueueError.PopTimeout, item, s)

/-- Well-formedness of a queue state: the backing array has length
`maximum_capacity`, `current_size` is at most the capacity, and the
cursors sit where the constructor and the modular increments can put
them: for capacity 0 both stay 0; for positive capacity `first` is in
range and `last` is `first + current_size` reduced mod the capacity. -/
def safe_queue.WF (s : safe_queue T) : Prop :=
  s.queue_data.length = s.maximum_capacity ∧
  s.current_size ≤ s.maximum_capacity ∧
  (s.maximum_capacity = 0 → s.first = 0 ∧ s.last = 0) ∧
  (0 < s.maximum_capacity →
    s.first < s.maximum_capacity ∧
    s.last = (s.first + s.current_size) % s.maximum_capacity)

instance (s : safe_queue T) : Decidable s.WF := by
  unfold safe_queue.WF
  infer_instance

/-- Logical contents of the queue: the `current_size` elements starting at
`first`, read going around the circular buffer. -/
def safe_queue.absList [Inhabited T] (s : safe_queue T) : List T :=
  (List.range s.current_size).map fun i =>
    s.queue_data.getD ((s.first + i) % s.maximum_capacity) default

/-- One sequential call dispatched on a `safe_queue` state.  The timed pop
is called with a default-initialised out-variable, as in the repository's
own callers (`int val; q->pop(val, ...)`). -/
def safe_queue.step [Inhabited T] (s : safe_queue T) : QOp T → QRes T × safe_queue T
  | QOp.size => (QRes.natR s.size, s)
  | QOp.empty => (QRes.boolR s.empty, s)
  | QOp.full => (QRes.boolR s.full, s)
  | QOp.push x =>
    match s.push x with
    | some s' => (QRes.unitR, s')
    | none => (QRes.blockedR, s)
  | QOp.push_timed x t =>
    match s.push_timed x t with
    | (Except.ok b, s') => (QRes.boolR b, s')
    | (Except.error e, s') => (QRes.errR e, s')
  | QOp.pop =>
    match s.pop with
    | some (x, s') => (QRes.itemR x, s')
    | none => (QRes.blockedR, s)
  | QOp.pop_timed t =>
    match s.pop_timed default t with
    | (Except.ok _, x, s') => (QRes.popOutR x, s')
    | (Except.error e, _, s') => (QRes.errR e, s')

/-- Sequential execution of a call sequence: outcomes in order and the
final state.  A blocking call that parks forever ends the execution (no
later call ever runs). -/
def safe_queue.run [Inhabited T] :
    List (QOp T) → safe_queue T → List (QRes T) × safe_queue T
  | [], s => ([], s)
  | op :: ops, s =>
    let p := s.step op
    if p.1.isBlocked then ([p.1], p.2)
    else
      let q := safe_queue.run ops p.2
      (p.1 :: q.1, q.2)

/-- The item successfully enqueued by this call, if any. -/
def pushedOf (op : QOp T) (r : QRes T) : List T :=
  match op, r with
  | QOp.push x, QRes.unitR => [x]
  | QOp.push_timed x _, QRes.boolR true => [x]
  | _, _ => []

/-- The item successfully dequeued by this call, if any. -/
def poppedOf (r : QRes T) : List T :=
  match r with
  | QRes.itemR x => [x]
  | QRes.popOutR x => [x]
  | _ => []

/-- Sequential execution of a call sequence, recording the successfully
pushed items and the successfully popped items, each in call order. -/
def safe_queue.trace [Inhabited T] :
    List (QOp T) → safe_queue T → List T × List T
  | [], _ => ([], [])
  | op :: ops, s =>
    let p := s.step op
    if p.1.isBlocked then ([], [])
    else
      let q := safe_queue.trace ops p.2
      (pushedOf op p.1 ++ q.1, poppedOf p.1 ++ q.2)

/-- A sequence of blocking pushes, one per list element, left to right;
`none` when one of them blocks forever. -/
def safe_queue.pushAll (s : safe_queue T) : List T → Option (safe_queue T)
  | [] => some s
  | x :: xs =>
    match s.push x with
    | some s' => s'.pushAll xs
    | none => none

end EnqueueImpl

namespace QueueCpp

/-- State of `safe_queue<T>` from `src/queue.cpp`: `queue_size` is the
backing array (the source's name for it), `maximum_capacity` its length,
`enqueue_element` the number of occupied slots, `first` the read index and
`last` the write index. -/
structure safe_queue (T : Type) where
  queue_size : List T
  maximum_capacity : Nat
  enqueue_element : Nat
  first : Nat
  last : Nat
deriving Repr, DecidableEq

variable {T : Type}

/-- Constructor (src/queue.cpp:20-23). -/
def safe_queue.mkQueue (T : Type) [Inhabited T] (max_maximum_capacity : Nat) :
    safe_queue T :=
  { queue_size := List.replicate max_maximum_capacity default
    maximum_capacity := max_maximum_capacity
    enqueue_element := 0
    first := 0
    last := 0 }

/-- `size()` (src/queue.cpp:31-34). -/
def safe_queue.size (s : safe_queue T) : Nat :=
  s.enqueue_element

/-- `empty()` (src/queue.cpp:37-40). -/
def safe_queue.empty (s : safe_queue T) : Bool :=
  s.enqueue_element == 0

/-- `full()` (src/queue.cpp:43-46). -/
def safe_queue.full (s : safe_queue T) : Bool :=
  s.enqueue_element == s.maximum_capacity

/-- Blocking `push` (src/queue.cpp:49-58). -/
def safe_queue.push (s : safe_queue T) (item : T) : Option (safe_queue T) :=
  if s.enqueue_element < s.maximum_capacity then
    some { s with
      queue_size := s.queue_size.set s.last item
      last := (s.last + 1) % s.maximum_capacity
      enqueue_element := s.enqueue_element + 1 }
  else
    none

/-- Timed `push` (src/queue.cpp:61-74). -/
def safe_queue.push_timed (s : safe_queue T) (item : T) (timeout : Int) :
    Except QueueError Bool × safe_queue T :=
  if s.enqueue_element < s.maximum_capacity then
    (Except.ok true,
      { s with
        queue_size := s.queue_size.set s.last item
        last := (s.last + 1) % s.maximum_capacity
        enqueue_element := s.enqueue_element + 1 })
  else
    (Except.error QueueError.PushTimeout, s)

/-- Blocking `pop` (src/queue.cpp:77-87). -/
def safe_queue.pop [Inhabited T] (s : safe_queue T) : Option (T × safe_queue T) :=
  if s.enqueue_element > 0 then
    some (s.queue_size.getD s.first default,
      { s with
        first := (s.first + 1) % s.maximum_capacity
        enqueue_element := s.enqueue_element - 1 })
  else
    none

/-- Timed `pop` (src/queue.cpp:90-103). -/
def safe_queue.pop_timed [Inhabited T] (s : safe_queue T) (item : T) (timeout : Int) :
    Except QueueError Bool × T × safe_queue T :=
  if s.enqueue_element > 0 then
    (Except.ok true, s.queue_size.getD s.first default,
      { s with
        first := (s.first + 1) % s.maximum_capacity
        enqueue_element := s.enqueue_element - 1 })
  else
    (Except.error QueueError.PopTimeout, item, s)

/-- One sequential call dispatched on the `src/queue.cpp` implementation. -/
def safe_queue.step [Inhabited T] (s : safe_queue T) : QOp T → QRes T × safe_queue T
  | QOp.size => (QRes.natR s.size, s)
  | QOp.empty => (QRes.boolR s.empty, s)
  | QOp.full => (QRes.boolR s.full, s)
  | QOp.push x =>
    match s.push x with
    | some s' => (QRes.unitR, s')
    | none => (QRes.blockedR, s)
  | QOp.push_timed x t =>
    match s.push_timed x t with
    | (Except.ok b, s') => (QRes.boolR b, s')
    | (Except.error e, s') => (QRes.errR e, s')
  | QOp.pop =>
    match s.pop with
    | some (x, s') => (QRes.itemR x, s')
    | none => (QRes.blockedR, s)
  | QOp.pop_timed t =>
    match s.pop_timed default t with
    | (Except.ok _, x, s') => (QRes.popOutR x, s')
    | (Except.error e, _, s') => (QRes.errR e, s')

/-- Sequential execution on the `src/queue.cpp` implementation. -/
def safe_queue.run [Inhabited T] :
    List (QOp T) → safe_queue T → List (QRes T) × safe_queue T
  | [], s => ([], s)
  | op :: ops, s =>
    let p := s.step op
    if p.1.isBlocked then ([p.1], p.2)
    else
      let q := safe_queue.run ops p.2
      (p.1 :: q.1, q.2)

/-- The field-for-field correspondence between the `src/queue.cpp` state
and the `src/enqueue.cpp` state. -/
def safe_queue.toEnqueue (s : safe_queue T) : EnqueueImpl.safe_queue T :=
  { queue_data := s.queue_size
    maximum_capacity := s.maximum_capacity
    current_size := s.enqueue_element
    first := s.first
    last := s.last }

end QueueCpp

namespace QueueH

/-- State of `ThreadSafeQueue<T>` from `src/queue.h`: `buffer` is the
backing array, `capacity` its length, `count` the number of occupied
slots, `front` the read index and `rear` the write index. -/
structure ThreadSafeQueue (T : Type) where
  buffer : List T
  capacity : Nat
  count : Nat
  front : Nat
  rear : Nat
deriving Repr, DecidableEq

variable {T : Type}

/-- Constructor (src/queue.h:50-52): `count`, `front`, `rear` start at 0
via their member initialisers. -/
def ThreadSafeQueue.mkQueue (T : Type) [Inhabited T] (max_capacity : Nat) :
    ThreadSafeQueue T :=
  { buffer := List.replicate max_capacity default
    capacity := max_capacity
    count := 0
    front := 0
    rear := 0 }

/-- `size()` (src/queue.h:54-58). -/
def ThreadSafeQueue.size (s : ThreadSafeQueue T) : Nat :=
  s.count

/-- `empty()` (src/queue.h:60-64). -/
def ThreadSafeQueue.empty (s : ThreadSafeQueue T) : Bool :=
  s.count == 0

/-- `full()` (src/queue.h:66-70). -/
def ThreadSafeQueue.full (s : ThreadSafeQueue T) : Bool :=
  s.count == s.capacity

/-- Blocking `push` (src/queue.h:72-82). -/
def ThreadSafeQueue.push (s : ThreadSafeQueue T) (item : T) :
    Option (ThreadSafeQueue T) :=
  if s.count < s.capacity then
    some { s with
      buffer := s.buffer.set s.rear item
      rear := (s.rear + 1) % s.capacity
      count := s.count + 1 }
  else
    none

/-- Timed `push` (src/queue.h:84-98). -/
def ThreadSafeQueue.push_timed (s : ThreadSafeQueue T) (item : T) (timeout : Int) :
    Except QueueError Bool × ThreadSafeQueue T :=
  if s.count < s.capacity then
    (Except.ok true,
      { s with
        buffer := s.buffer.set s.rear item
        rear := (s.rear + 1) % s.capacity
        count := s.count + 1 })
  else
    (Except.error QueueError.PushTimeout, s)

/-- Blocking `pop` (src/queue.h:100-111). -/
def ThreadSafeQueue.pop [Inhabited T] (s : ThreadSafeQueue T) :
    Option (T × ThreadSafeQueue T) :=
  if s.count > 0 then
    some (s.buffer.getD s.front default,
      { s with
        front := (s.front + 1) % s.capacity
        count := s.count - 1 })
  else
    none

/-- Timed `pop` (src/queue.h:113-127). -/
def ThreadSafeQueue.pop_timed [Inhabited T] (s : ThreadSafeQueue T) (item : T)
    (timeout : Int) : Except QueueError Bool × T × ThreadSafeQueue T :=
  if s.count > 0 then
    (Except.ok true, s.buffer.getD s.front default,
      { s with
        front := (s.front + 1) % s.capacity
        count := s.count - 1 })
  else
    (Except.error QueueError.PopTimeout, item, s)

/-- One sequential call dispatched on the `src/queue.h` implementation. -/
def ThreadSafeQueue.step [Inhabited T] (s : ThreadSafeQueue T) :
    QOp T → QRes T × ThreadSafeQueue T
  | QOp.size => (QRes.natR s.size, s)
  | QOp.empty => (QRes.boolR s.empty, s)
  | QOp.full => (QRes.boolR s.full, s)
  | QOp.push x =>
    match s.push x with
    | some s' => (QRes.unitR, s')
    | none => (QRes.blockedR, s)
  | QOp.push_timed x t =>
    match s.push_timed x t with
    | (Except.ok b, s') => (QRes.boolR b, s')
    | (Except.error e, s') => (QRes.errR e, s')
  | QOp.pop =>
    match s.pop with
    | some (x, s') => (QRes.itemR x, s')
    | none => (QRes.blockedR, s)
  | QOp.pop_timed t =>
    match s.pop_timed default t with
    | (Except.ok _, x, s') => (QRes.popOutR x, s')
    | (Except.error e, _, s') => (QRes.errR e, s')

/-- Sequential execution on the `src/queue.h` implementation. -/
def ThreadSafeQueue.run [Inhabited T] :
    List (QOp T) → ThreadSafeQueue T → List (QRes T) × ThreadSafeQueue T
  | [], s => ([], s)
  | op :: ops, s =>
    let p := s.step op
    if p.1.isBlocked then ([p.1], p.2)
    else
      let q := ThreadSafeQueue.run ops p.2
      (p.1 :: q.1, q.2)

/-- The field-for-field correspondence between the `src/queue.h` state and
the `src/enqueue.cpp` state. -/
def ThreadSafeQueue.toEnqueue (s : ThreadSafeQueue T) : EnqueueImpl.safe_queue T :=
  { queue_data := s.buffer
    maximum_capacity := s.capacity
    current_size := s.count
    first := s.front
    last := s.rear }

end QueueH

/-! ## Theorems -/

namespace EnqueueImpl

variable {T : Type}

theorem safe_queue.mkQueue_WF (T : Type) [Inhabited T] (c : Nat) :
    (safe_queue.mkQueue T c).WF := by
  refine ⟨?_, ?_, ?_, ?_⟩ <;>
    simp [safe_queue.mkQueue, Nat.zero_mod]

theorem safe_queue.mkQueue_absList (T : Type) [Inhabited T] (c : Nat) :
    (safe_queue.mkQueue T c).absList = [] := by
  simp [safe_queue.absList, safe_queue.mkQueue]

theorem getD_set_self {α : Type} (l : List α) (i : Nat) (a d : α) (h : i < l.length) :
    (l.set i a).getD i d = a := by
  simp [List.getD_eq_getElem?_getD, List.getElem?_set_self, h]

theorem getD_set_ne {α : Type} (l : List α) {i j : Nat} (a d : α) (h : i ≠ j) :
    (l.set i a).getD j d = l.getD j d := by
  simp [List.getD_eq_getElem?_getD, List.getElem?_set_ne h]

/-- Distinct offsets below the capacity land on distinct circular-buffer
slots relative to the same base index. -/
theorem mod_shift_ne {first i n c : Nat} (hi : i < n) (hn : n < c) :
    (first + i) % c ≠ (first + n) % c := by
  intro heq
  have h1 : i ≡ n [MOD c] := Nat.ModEq.add_left_cancel' first heq
  have h2 : i % c = n % c := h1
  rw [Nat.mod_eq_of_lt (lt_trans hi hn), Nat.mod_eq_of_lt hn] at h2
  omega

/-- A successful blocking push appends the item to the logical contents
and preserves well-formedness. -/
theorem safe_queue.push_spec [Inhabited T] {s s' : safe_queue T} {x : T}
    (hw : s.WF) (h : s.push x = some s') :
    s'.absList = s.absList ++ [x] ∧ s'.WF ∧
    s'.current_size = s.current_size + 1 ∧
    s'.maximum_capacity = s.maximum_capacity := by
  obtain ⟨hlen, hsz, hz, hpos⟩ := hw
  unfold safe_queue.push at h
  split at h
  case isFalse => exact absurd h (by simp)
  case isTrue hlt =>
  obtain rfl : _ = s' := Option.some_inj.mp h
  have hcpos : 0 < s.maximum_capacity := by omega
  obtain ⟨hfirst, hlast⟩ := hpos hcpos
  have hlastlt : s.last < s.maximum_capacity := by
    rw [hlast]; exact Nat.mod_lt _ hcpos
  refine ⟨?_, ⟨?_, ?_, ?_, ?_⟩, rfl, rfl⟩
  · show (List.range (s.current_size + 1)).map
        (fun i => (s.queue_data.set s.last x).getD
          ((s.first + i) % s.maximum_capacity) default)
      = (List.range s.current_size).map
        (fun i => s.queue_data.getD ((s.first + i) % s.maximum_capacity) default) ++ [x]
    rw [List.range_succ, List.map_append]
    congr 1
    · refine List.map_congr_left fun i hi => ?_
      have hi' : i < s.current_size := List.mem_range.mp hi
      refine getD_set_ne _ _ _ fun hh => ?_
      exact mod_shift_ne hi' hlt ((hlast ▸ hh).symm)
    · simp only [List.map_cons, List.map_nil]
      congr 1
      rw [show (s.first + s.current_size) % s.maximum_capacity = s.last from hlast.symm]
      exact getD_set_self _ _ _ _ (hlen ▸ hlastlt)
  · show (s.queue_data.set s.last x).length = s.maximum_capacity
    simpa using hlen
  · show s.current_size + 1 ≤ s.maximum_capacity
    omega
  · intro h0
    exact absurd h0 (Nat.pos_iff_ne_zero.mp hcpos)
  · intro _
    refine ⟨hfirst, ?_⟩
    show (s.last + 1) % s.maximum_capacity
        = (s.first + (s.current_size + 1)) % s.maximum_capacity
    rw [hlast, Nat.mod_add_mod, Nat.add_assoc]

/-- A successful blocking pop returns the head of the logical contents,
leaves the tail, and preserves well-formedness. -/
theorem safe_queue.pop_spec [Inhabited T] {s s' : safe_queue T} {x : T}
    (hw : s.WF) (h : s.pop = some (x, s')) :
    s.absList = x :: s'.absList ∧ s'.WF ∧
    s'.current_size = s.current_size - 1 ∧
    s'.maximum_capacity = s.maximum_capacity ∧
    s'.queue_data = s.queue_data := by
  obtain ⟨hlen, hsz, hz, hpos⟩ := hw
  unfold safe_queue.pop at h
  split at h
  case isFalse => exact absurd h (by simp)
  case isTrue hni =>
  obtain ⟨rfl, rfl⟩ := Prod.mk.inj (Option.some_inj.mp h)
  have hcpos : 0 < s.maximum_capacity := by omega
  obtain ⟨hfirst, hlast⟩ := hpos hcpos
  obtain ⟨m, hm⟩ : ∃ m, s.current_size = m + 1 := ⟨s.current_size - 1, by omega⟩
  refine ⟨?_, ⟨hlen, ?_, ?_, ?_⟩, rfl, rfl, rfl⟩
  · show (List.range s.current_size).map
        (fun i => s.queue_data.getD ((s.first + i) % s.maximum_capacity) default)
      = s.queue_data.getD s.first default ::
        (List.range (s.current_size - 1)).map
          (fun i => s.queue_data.getD
            (((s.first + 1) % s.maximum_capacity + i) % s.maximum_capacity) default)
    rw [hm]
    rw [List.range_succ_eq_map, List.map_cons, List.map_map]
    simp only [Nat.add_sub_cancel]
    congr 1
    · rw [Nat.add_zero, Nat.mod_eq_of_lt hfirst]
    · refine List.map_congr_left fun i _ => ?_
      show s.queue_data.getD ((s.first + (i + 1)) % s.maximum_capacity) default
        = s.queue_data.getD
            (((s.first + 1) % s.maximum_capacity + i) % s.maximum_capacity) default
      rw [Nat.mod_add_mod]
      congr 2
      omega
  · show s.current_size - 1 ≤ s.maximum_capacity
    omega
  · intro h0
    exact absurd h0 (Nat.pos_iff_ne_zero.mp hcpos)
  · intro _
    refine ⟨Nat.mod_lt _ hcpos, ?_⟩
    show s.last = ((s.first + 1) % s.maximum_capacity + (s.current_size - 1))
        % s.maximum_capacity
    rw [Nat.mod_add_mod, hlast, hm]
    congr 1
    omega

/-- The timed push takes the same branch as the blocking push: it performs
the identical mutation when `current_size < maximum_capacity` holds at
entry, and otherwise reports `PushTimeout` leaving the state alone. -/
theorem safe_queue.push_timed_eq (s : safe_queue T) (x : T) (t : Int) :
    s.push_timed x t =
      match s.push x with
      | some s' => (Except.ok true, s')
      | none => (Except.error QueueError.PushTimeout, s) := by
  unfold safe_queue.push_timed safe_queue.push
  split <;> rfl

/-- The timed pop takes the same branch as the blocking pop: on success it
writes the popped value into the out-parameter, on timeout it reports
`PopTimeout` leaving both the out-parameter and the state alone. -/
theorem safe_queue.pop_timed_eq [Inhabited T] (s : safe_queue T) (out : T) (t : Int) :
    s.pop_timed out t =
      match s.pop with
      | some (x, s') => (Except.ok true, x, s')
      | none => (Except.error QueueError.PopTimeout, out, s) := by
  unfold safe_queue.pop_timed safe_queue.pop
  split <;> rfl

/-- Exchange law for one call: every call preserves well-formedness, and
the logical contents absorb the pushed item at the back and release the
popped item at the front. -/
theorem safe_queue.step_exchange [Inhabited T] (s : safe_queue T) (op : QOp T)
    (hw : s.WF) :
    ((s.step op).2).WF ∧
    s.absList ++ pushedOf op (s.step op).1
      = poppedOf (s.step op).1 ++ ((s.step op).2).absList := by
  cases op with
  | size => exact ⟨hw, by simp [safe_queue.step, pushedOf, poppedOf]⟩
  | empty => exact ⟨hw, by simp [safe_queue.step, pushedOf, poppedOf]⟩
  | full => exact ⟨hw, by simp [safe_queue.step, pushedOf, poppedOf]⟩
  | push x =>
    rcases hp : s.push x with _ | s'
    · simp only [safe_queue.step, hp]
      exact ⟨hw, by simp [pushedOf, poppedOf]⟩
    · obtain ⟨habs, hwf, -, -⟩ := safe_queue.push_spec hw hp
      simp only [safe_queue.step, hp]
      exact ⟨hwf, by simp [pushedOf, poppedOf, habs]⟩
  | push_timed x t =>
    rcases hp : s.push x with _ | s'
    · simp only [safe_queue.step, safe_queue.push_timed_eq, hp]
      exact ⟨hw, by simp [pushedOf, poppedOf]⟩
    · obtain ⟨habs, hwf, -, -⟩ := safe_queue.push_spec hw hp
      simp only [safe_queue.step, safe_queue.push_timed_eq, hp]
      exact ⟨hwf, by simp [pushedOf, poppedOf, habs]⟩
  | pop =>
    rcases hp : s.pop with _ | ⟨x, s'⟩
    · simp only [safe_queue.step, hp]
      exact ⟨hw, by simp [pushedOf, poppedOf]⟩
    · obtain ⟨habs, hwf, -, -, -⟩ := safe_queue.pop_spec hw hp
      simp only [safe_queue.step, hp]
      exact ⟨hwf, by simp [pushedOf, poppedOf, habs]⟩
  | pop_timed t =>
    rcases hp : s.pop with _ | ⟨x, s'⟩
    · simp only [safe_queue.step, safe_queue.pop_timed_eq, hp]
      exact ⟨hw, by simp [pushedOf, poppedOf]⟩
    · obtain ⟨habs, hwf, -, -, -⟩ := safe_queue.pop_spec hw hp
      simp only [safe_queue.step, safe_queue.pop_timed_eq, hp]
      exact ⟨hwf, by simp [pushedOf, poppedOf, habs]⟩

/-- Over any sequential execution from a well-formed state, the popped
items are a prefix of the queue's initial contents followed by the pushed
items. -/
theorem safe_queue.trace_prefix [Inhabited T] (ops : List (QOp T)) (s : safe_queue T)
    (hw : s.WF) :
    (safe_queue.trace ops s).2 <+: s.absList ++ (safe_queue.trace ops s).1 := by
  induction ops generalizing s with
  | nil => exact ⟨s.absList, by simp [safe_queue.trace]⟩
  | cons op ops ih =>
    obtain ⟨hwf', hx⟩ := safe_queue.step_exchange s op hw
    show (safe_queue.trace (op :: ops) s).2 <+: _
    unfold safe_queue.trace
    by_cases hb : ((s.step op).1).isBlocked = true
    · simp only [hb, if_pos]
      exact ⟨s.absList, by simp⟩
    · simp only [hb, if_neg, Bool.false_eq_true, not_false_iff]
      obtain ⟨tail, htail⟩ := ih ((s.step op).2) hwf'
      refine ⟨tail, ?_⟩
      show poppedOf (s.step op).1 ++ (safe_queue.trace ops (s.step op).2).2 ++ tail
        = s.absList ++ (pushedOf op (s.step op).1 ++ (safe_queue.trace ops (s.step op).2).1)
      rw [List.append_assoc, htail, ← List.append_assoc, ← hx, List.append_assoc]

/-- Enough spare capacity lets a whole list of blocking pushes go through,
adding its length to the element count. -/
theorem safe_queue.pushAll_spec [Inhabited T] {s : safe_queue T} (xs : List T)
    (hw : s.WF) (h : s.current_size + xs.length ≤ s.maximum_capacity) :
    ∃ s', s.pushAll xs = some s' ∧ s'.WF ∧
      s'.current_size = s.current_size + xs.length ∧
      s'.maximum_capacity = s.maximum_capacity := by
  induction xs generalizing s with
  | nil => exact ⟨s, rfl, hw, by simp [safe_queue.pushAll], rfl⟩
  | cons x xs ih =>
    have hlt : s.current_size < s.maximum_capacity := by
      simp only [List.length_cons] at h
      omega
    obtain ⟨s1, hp⟩ : ∃ s1, s.push x = some s1 := by
      unfold safe_queue.push
      rw [if_pos hlt]
      exact ⟨_, rfl⟩
    obtain ⟨-, hwf1, hsz1, hcap1⟩ := safe_queue.push_spec hw hp
    obtain ⟨s', hall, hwf', hsz', hcap'⟩ := ih hwf1 (by
      simp only [List.length_cons] at h
      omega)
    refine ⟨s', ?_, hwf', ?_, ?_⟩
    · simp only [safe_queue.pushAll, hp]
      exact hall
    · simp only [List.length_cons]
      omega
    · rw [hcap', hcap1]

/-- On the capacity-0 queue every call leaves the state unchanged: the
queries mutate nothing, the blocking operations park forever and the timed
operations throw without mutating. -/
theorem safe_queue.step_zero [Inhabited T] (op : QOp T) :
    ((safe_queue.mkQueue T 0).step op).2 = safe_queue.mkQueue T 0 := by
  cases op <;>
    simp [safe_queue.step, safe_queue.mkQueue, safe_queue.push,
      safe_queue.push_timed, safe_queue.pop, safe_queue.pop_timed]

/-- Every sequential execution on the capacity-0 queue ends in the fresh
capacity-0 state: no call can ever change it. -/
theorem safe_queue.run_zero [Inhabited T] (ops : List (QOp T)) :
    (safe_queue.run ops (safe_queue.mkQueue T 0)).2 = safe_queue.mkQueue T 0 := by
  induction ops with
  | nil => rfl
  | cons op ops ih =>
    unfold safe_queue.run
    by_cases hb : (((safe_queue.mkQueue T 0).step op).1).isBlocked = true
    · simp only [hb, if_pos]
      exact safe_queue.step_zero op
    · simp only [hb, if_neg, Bool.false_eq_true, not_false_iff]
      rw [safe_queue.step_zero op]
      exact ih

end EnqueueImpl

namespace QueueCpp

variable {T : Type}

theorem safe_queue.cpp_mkQueue_toEnqueue (T : Type) [Inhabited T] (c : Nat) :
    (safe_queue.mkQueue T c).toEnqueue = EnqueueImpl.safe_queue.mkQueue T c := rfl

/-- One call on the `src/queue.cpp` implementation does exactly what the
same call does on the `src/enqueue.cpp` implementation, under the
field-for-field correspondence of the states. -/
theorem safe_queue.cpp_step_toEnqueue [Inhabited T] (s : safe_queue T) (op : QOp T) :
    EnqueueImpl.safe_queue.step s.toEnqueue op
      = ((s.step op).1, ((s.step op).2).toEnqueue) := by
  cases op with
  | size => rfl
  | empty => rfl
  | full => rfl
  | push x =>
    by_cases h : s.enqueue_element < s.maximum_capacity <;>
      simp [EnqueueImpl.safe_queue.step, safe_queue.step,
        EnqueueImpl.safe_queue.push, safe_queue.push, safe_queue.toEnqueue, h]
  | push_timed x t =>
    by_cases h : s.enqueue_element < s.maximum_capacity <;>
      simp [EnqueueImpl.safe_queue.step, safe_queue.step,
        EnqueueImpl.safe_queue.push_timed, safe_queue.push_timed,
        safe_queue.toEnqueue, h]
  | pop =>
    by_cases h : s.enqueue_element > 0 <;>
      simp [EnqueueImpl.safe_queue.step, safe_queue.step,
        EnqueueImpl.safe_queue.pop, safe_queue.pop, safe_queue.toEnqueue, h]
  | pop_timed t =>
    by_cases h : s.enqueue_element > 0 <;>
      simp [EnqueueImpl.safe_queue.step, safe_queue.step,
        EnqueueImpl.safe_queue.pop_timed, safe_queue.pop_timed,
        safe_queue.toEnqueue, h]

/-- Sequential executions agree call by call between the `src/queue.cpp`
implementation and the `src/enqueue.cpp` implementation. -/
theorem safe_queue.cpp_run_toEnqueue [Inhabited T] (ops : List (QOp T))
    (s : safe_queue T) :
    EnqueueImpl.safe_queue.run ops s.toEnqueue
      = ((safe_queue.run ops s).1, ((safe_queue.run ops s).2).toEnqueue) := by
  induction ops generalizing s with
  | nil => rfl
  | cons op ops ih =>
    unfold EnqueueImpl.safe_queue.run safe_queue.run
    rw [safe_queue.cpp_step_toEnqueue]
    by_cases hb : ((s.step op).1).isBlocked = true
    · simp [hb]
    · simp [hb, ih]

end QueueCpp

namespace QueueH

variable {T : Type}

theorem ThreadSafeQueue.tsq_mkQueue_toEnqueue (T : Type) [Inhabited T] (c : Nat) :
    (ThreadSafeQueue.mkQueue T c).toEnqueue = EnqueueImpl.safe_queue.mkQueue T c := rfl

/-- One call on the `src/queue.h` implementation does exactly what the
same call does on the `src/enqueue.cpp` implementation, under the
field-for-field correspondence of the states. -/
theorem ThreadSafeQueue.tsq_step_toEnqueue [Inhabited T] (s : ThreadSafeQueue T)
    (op : QOp T) :
    EnqueueImpl.safe_queue.step s.toEnqueue op
      = ((s.step op).1, ((s.step op).2).toEnqueue) := by
  cases op with
  | size => rfl
  | empty => rfl
  | full => rfl
  | push x =>
    by_cases h : s.count < s.capacity <;>
      simp [EnqueueImpl.safe_queue.step, ThreadSafeQueue.step,
        EnqueueImpl.safe_queue.push, ThreadSafeQueue.push,
        ThreadSafeQueue.toEnqueue, h]
  | push_timed x t =>
    by_cases h : s.count < s.capacity <;>
      simp [EnqueueImpl.safe_queue.step, ThreadSafeQueue.step,
        EnqueueImpl.safe_queue.push_timed, ThreadSafeQueue.push_timed,
        ThreadSafeQueue.toEnqueue, h]
  | pop =>
    by_cases h : s.count > 0 <;>
      simp [EnqueueImpl.safe_queue.step, ThreadSafeQueue.step,
        EnqueueImpl.safe_queue.pop, ThreadSafeQueue.pop,
        ThreadSafeQueue.toEnqueue, h]
  | pop_timed t =>
    by_cases h : s.count > 0 <;>
      simp [EnqueueImpl.safe_queue.step, ThreadSafeQueue.step,
        EnqueueImpl.safe_queue.pop_timed, ThreadSafeQueue.pop_timed,
        ThreadSafeQueue.toEnqueue, h]

/-- Sequential executions agree call by call between the `src/queue.h`
implementation and the `src/enqueue.cpp` implementation. -/
theorem ThreadSafeQueue.tsq_run_toEnqueue [Inhabited T] (ops : List (QOp T))
    (s : ThreadSafeQueue T) :
    EnqueueImpl.safe_queue.run ops s.toEnqueue
      = ((ThreadSafeQueue.run ops s).1, ((ThreadSafeQueue.run ops s).2).toEnqueue) := by
  induction ops generalizing s with
  | nil => rfl
  | cons op ops ih =>
    unfold EnqueueImpl.safe_queue.run ThreadSafeQueue.run
    rw [ThreadSafeQueue.tsq_step_toEnqueue]
    by_cases hb : ((s.step op).1).isBlocked = true
    · simp [hb]
    · simp [hb, ih]

end QueueH

/-! ## The claims -/

/-- C1: for every sequence of pushes and pops executed sequentially (no
concurrent interleaving) on one queue, each successful pop returns the
items in exactly the order they were pushed: the list of successfully
popped items is a prefix of the list of successfully pushed items, so the
n-th successful pop returns the item supplied by the n-th successful push
(FIFO). -/
theorem C1_fifo_order {T : Type} [Inhabited T] (ops : List (QOp T)) (c : Nat) :
    (EnqueueImpl.safe_queue.trace ops (EnqueueImpl.safe_queue.mkQueue T c)).2
      <+: (EnqueueImpl.safe_queue.trace ops (EnqueueImpl.safe_queue.mkQueue T c)).1 := by
  have h := EnqueueImpl.safe_queue.trace_prefix ops _ (EnqueueImpl.safe_queue.mkQueue_WF T c)
  rwa [EnqueueImpl.safe_queue.mkQueue_absList, List.nil_append] at h

/-- C2 counterexample: the claimed equality `count = (tail - head) mod
capacity` is not preserved.  The fresh capacity-1 queue satisfies it, yet
after one successful push (item 42) the resulting state has
`current_size = 1` while `(last - first) % maximum_capacity = 0`. -/
theorem C2_counterexample :
    (EnqueueImpl.safe_queue.mkQueue Nat 1).current_size
        = ((EnqueueImpl.safe_queue.mkQueue Nat 1).last
            - (EnqueueImpl.safe_queue.mkQueue Nat 1).first)
          % (EnqueueImpl.safe_queue.mkQueue Nat 1).maximum_capacity ∧
    (((EnqueueImpl.safe_queue.mkQueue Nat 1).push 42).all
      fun s' => s'.current_size
          == (s'.last - s'.first) % s'.maximum_capacity) = false := by
  decide

/-- C2 (amended): every queue operation (push, timed push, pop, timed pop,
size, empty, full) preserves the state invariant: `current_size` is in
`[0, capacity]`, the backing array keeps length `capacity`, `first` and
`last` stay in `[0, capacity)` when the capacity is positive and advance
only by modular increment, and `last = (first + current_size) mod
capacity` — that is, `count` is congruent to `tail - head` modulo the
capacity, rather than equal to `(tail - head) mod capacity`, which fails
on a full queue. -/
theorem C2_invariant_preserved {T : Type} [Inhabited T] (s : EnqueueImpl.safe_queue T)
    (op : QOp T) (hw : s.WF) : ((s.step op).2).WF :=
  (EnqueueImpl.safe_queue.step_exchange s op hw).1

theorem C2_invariant_preserved_witness :
    (EnqueueImpl.safe_queue.mkQueue Nat 2).WF ∧
    (((EnqueueImpl.safe_queue.mkQueue Nat 2).step (QOp.push 5)).2).WF :=
  ⟨by decide, C2_invariant_preserved (EnqueueImpl.safe_queue.mkQueue Nat 2)
    (QOp.push 5) (by decide)⟩

/-- C3: when the timed push finds no capacity (its wait predicate
`current_size < maximum_capacity` fails, which sequentially is exactly the
timeout case), it fails with the PushTimeout error and the whole state —
buffer, count, head and tail — is returned exactly as it was before the
call: no partial mutation. -/
theorem C3_push_timeout_unchanged {T : Type} (s : EnqueueImpl.safe_queue T) (x : T)
    (t : Int) (h : ¬ s.current_size < s.maximum_capacity) :
    s.push_timed x t = (Except.error QueueError.PushTimeout, s) := by
  unfold EnqueueImpl.safe_queue.push_timed
  rw [if_neg h]

theorem C3_push_timeout_unchanged_witness :
    ¬ (EnqueueImpl.safe_queue.mk [7] 1 1 0 0).current_size
        < (EnqueueImpl.safe_queue.mk [7] 1 1 0 0).maximum_capacity ∧
    (EnqueueImpl.safe_queue.mk [7] 1 1 0 0 : EnqueueImpl.safe_queue Nat).push_timed 9 50
      = (Except.error QueueError.PushTimeout, EnqueueImpl.safe_queue.mk [7] 1 1 0 0) :=
  ⟨by decide, C3_push_timeout_unchanged (EnqueueImpl.safe_queue.mk [7] 1 1 0 0) 9 50
    (by decide)⟩

/-- C4: when the timed pop finds no item (its wait predicate
`current_size > 0` fails, which sequentially is exactly the timeout case),
it fails with the PopTimeout error, the out-parameter is left untouched
and the whole queue state — buffer, count, head and tail — is returned
exactly as it was before the call. -/
theorem C4_pop_timeout_unchanged {T : Type} [Inhabited T]
    (s : EnqueueImpl.safe_queue T) (out : T) (t : Int)
    (h : ¬ s.current_size > 0) :
    s.pop_timed out t = (Except.error QueueError.PopTimeout, out, s) := by
  unfold EnqueueImpl.safe_queue.pop_timed
  rw [if_neg h]

theorem C4_pop_timeout_unchanged_witness :
    ¬ (EnqueueImpl.safe_queue.mk [0, 0] 2 0 1 1).current_size > 0 ∧
    (EnqueueImpl.safe_queue.mk [0, 0] 2 0 1 1 : EnqueueImpl.safe_queue Nat).pop_timed 99 50
      = (Except.error QueueError.PopTimeout, 99, EnqueueImpl.safe_queue.mk [0, 0] 2 0 1 1) :=
  ⟨by decide, C4_pop_timeout_unchanged (EnqueueImpl.safe_queue.mk [0, 0] 2 0 1 1) 99 50
    (by decide)⟩

/-- C5: on a queue constructed with capacity 0, in every reachable state
(the final state of any sequential call sequence) `empty()` and `full()`
both return true, every timed push fails with PushTimeout and every timed
pop fails with PopTimeout, all without mutating the state. -/
theorem C5_zero_capacity {T : Type} [Inhabited T] (ops : List (QOp T)) :
    ((EnqueueImpl.safe_queue.run ops (EnqueueImpl.safe_queue.mkQueue T 0)).2).empty = true ∧
    ((EnqueueImpl.safe_queue.run ops (EnqueueImpl.safe_queue.mkQueue T 0)).2).full = true ∧
    (∀ (x : T) (t : Int),
      ((EnqueueImpl.safe_queue.run ops (EnqueueImpl.safe_queue.mkQueue T 0)).2).push_timed x t
        = (Except.error QueueError.PushTimeout,
            (EnqueueImpl.safe_queue.run ops (EnqueueImpl.safe_queue.mkQueue T 0)).2)) ∧
    (∀ (out : T) (t : Int),
      ((EnqueueImpl.safe_queue.run ops (EnqueueImpl.safe_queue.mkQueue T 0)).2).pop_timed out t
        = (Except.error QueueError.PopTimeout, out,
            (EnqueueImpl.safe_queue.run ops (EnqueueImpl.safe_queue.mkQueue T 0)).2)) := by
  rw [EnqueueImpl.safe_queue.run_zero]
  refine ⟨rfl, rfl, ?_, ?_⟩
  · intro x t
    simp [EnqueueImpl.safe_queue.push_timed, EnqueueImpl.safe_queue.mkQueue]
  · intro out t
    simp [EnqueueImpl.safe_queue.pop_timed, EnqueueImpl.safe_queue.mkQueue]

/-- C6: for every capacity `c`, after exactly `c` successful blocking
pushes on a fresh queue with no intervening pops, `full()` returns true,
`size()` returns `c`, and any further timed push fails with PushTimeout
returning the state exactly unchanged. -/
theorem C6_fill_exactly {T : Type} [Inhabited T] (c : Nat) (xs : List T)
    (h : xs.length = c) :
    ∃ s', (EnqueueImpl.safe_queue.mkQueue T c).pushAll xs = some s' ∧
      s'.full = true ∧ s'.size = c ∧
      ∀ (y : T) (t : Int),
        s'.push_timed y t = (Except.error QueueError.PushTimeout, s') := by
  obtain ⟨s', hall, hwf, hsz, hcap⟩ :=
    EnqueueImpl.safe_queue.pushAll_spec xs (EnqueueImpl.safe_queue.mkQueue_WF T c)
      (by simpa [EnqueueImpl.safe_queue.mkQueue] using Nat.le_of_eq h)
  have hsz' : s'.current_size = c := by
    simpa [EnqueueImpl.safe_queue.mkQueue, h] using hsz
  have hcap' : s'.maximum_capacity = c := by
    simpa [EnqueueImpl.safe_queue.mkQueue] using hcap
  refine ⟨s', hall, ?_, ?_, ?_⟩
  · simp [EnqueueImpl.safe_queue.full, hsz', hcap']
  · simpa [EnqueueImpl.safe_queue.size] using hsz'
  · intro y t
    unfold EnqueueImpl.safe_queue.push_timed
    rw [if_neg (by omega)]

theorem C6_fill_exactly_witness :
    ([10, 20] : List Nat).length = 2 ∧
    (∃ s', (EnqueueImpl.safe_queue.mkQueue Nat 2).pushAll [10, 20] = some s' ∧
      s'.full = true ∧ s'.size = 2 ∧
      ∀ (y : Nat) (t : Int),
        s'.push_timed y t = (Except.error QueueError.PushTimeout, s')) :=
  ⟨by decide, C6_fill_exactly 2 [10, 20] (by decide)⟩

/-- C7: round trip — for every item `x` and every well-formed queue state
in which the queue is empty and the capacity is positive, `pop()` executed
immediately after `push(x)` succeeds and returns exactly `x`. -/
theorem C7_roundtrip {T : Type} [Inhabited T] (s : EnqueueImpl.safe_queue T) (x : T)
    (hw : s.WF) (he : s.current_size = 0) (hc : 0 < s.maximum_capacity) :
    ∃ s1 s2, s.push x = some s1 ∧ s1.pop = some (x, s2) := by
  obtain ⟨s1, hp⟩ : ∃ s1, s.push x = some s1 := by
    unfold EnqueueImpl.safe_queue.push
    rw [if_pos (by omega)]
    exact ⟨_, rfl⟩
  obtain ⟨habs, hwf1, hsz1, -⟩ := EnqueueImpl.safe_queue.push_spec hw hp
  have habs0 : s.absList = [] := by
    unfold EnqueueImpl.safe_queue.absList
    rw [he]
    simp
  rw [habs0, List.nil_append] at habs
  obtain ⟨y, s2, hq⟩ : ∃ y s2, s1.pop = some (y, s2) := by
    unfold EnqueueImpl.safe_queue.pop
    rw [if_pos (by omega)]
    exact ⟨_, _, rfl⟩
  obtain ⟨habs1, -, -, -, -⟩ := EnqueueImpl.safe_queue.pop_spec hwf1 hq
  rw [habs] at habs1
  simp only [List.cons.injEq] at habs1
  obtain ⟨rfl, -⟩ := habs1
  exact ⟨s1, s2, hp, hq⟩

theorem C7_roundtrip_witness :
    (EnqueueImpl.safe_queue.mkQueue Nat 3).WF ∧
    (EnqueueImpl.safe_queue.mkQueue Nat 3).current_size = 0 ∧
    0 < (EnqueueImpl.safe_queue.mkQueue Nat 3).maximum_capacity ∧
    ∃ s1 s2, (EnqueueImpl.safe_queue.mkQueue Nat 3).push 42 = some s1 ∧
      s1.pop = some (42, s2) :=
  ⟨by decide, by decide, by decide,
    C7_roundtrip (EnqueueImpl.safe_queue.mkQueue Nat 3) 42 (by decide) (by decide)
      (by decide)⟩

/-- C8: with a timeout of zero or negative duration the timed operations
check their condition exactly once at call time.  The timed push succeeds
performing the normal enqueue iff `current_size < maximum_capacity` holds
then, and fails immediately with PushTimeout otherwise leaving the state
unchanged; the timed pop succeeds performing the normal dequeue iff
`current_size > 0` holds then, and fails immediately with PopTimeout
otherwise leaving the out-parameter and the state unchanged. -/
theorem C8_nonpositive_timeout {T : Type} [Inhabited T]
    (s : EnqueueImpl.safe_queue T) (x out : T) (t : Int) (ht : t ≤ 0) :
    (s.current_size < s.maximum_capacity →
      ∃ s', s.push x = some s' ∧ s.push_timed x t = (Except.ok true, s')) ∧
    (¬ s.current_size < s.maximum_capacity →
      s.push_timed x t = (Except.error QueueError.PushTimeout, s)) ∧
    (0 < s.current_size →
      ∃ y s', s.pop = some (y, s') ∧ s.pop_timed out t = (Except.ok true, y, s')) ∧
    (¬ 0 < s.current_size →
      s.pop_timed out t = (Except.error QueueError.PopTimeout, out, s)) := by
  refine ⟨?_, ?_, ?_, ?_⟩
  · intro h
    refine ⟨{ s with
        queue_data := s.queue_data.set s.last x
        last := (s.last + 1) % s.maximum_capacity
        current_size := s.current_size + 1 }, ?_, ?_⟩
    · unfold EnqueueImpl.safe_queue.push
      rw [if_pos h]
    · unfold EnqueueImpl.safe_queue.push_timed
      rw [if_pos h]
  · intro h
    unfold EnqueueImpl.safe_queue.push_timed
    rw [if_neg h]
  · intro h
    refine ⟨s.queue_data.getD s.first default,
      { s with
        first := (s.first + 1) % s.maximum_capacity
        current_size := s.current_size - 1 }, ?_, ?_⟩
    · unfold EnqueueImpl.safe_queue.pop
      rw [if_pos h]
    · unfold EnqueueImpl.safe_queue.pop_timed
      rw [if_pos h]
  · intro h
    unfold EnqueueImpl.safe_queue.pop_timed
    rw [if_neg h]

theorem C8_nonpositive_timeout_witness :
    ((0 : Int) ≤ 0) ∧
    (((EnqueueImpl.safe_queue.mkQueue Nat 1).current_size
        < (EnqueueImpl.safe_queue.mkQueue Nat 1).maximum_capacity →
      ∃ s', (EnqueueImpl.safe_queue.mkQueue Nat 1).push 7 = some s' ∧
        (EnqueueImpl.safe_queue.mkQueue Nat 1).push_timed 7 0 = (Except.ok true, s')) ∧
    (¬ (EnqueueImpl.safe_queue.mkQueue Nat 1).current_size
        < (EnqueueImpl.safe_queue.mkQueue Nat 1).maximum_capacity →
      (EnqueueImpl.safe_queue.mkQueue Nat 1).push_timed 7 0
        = (Except.error QueueError.PushTimeout, EnqueueImpl.safe_queue.mkQueue Nat 1)) ∧
    (0 < (EnqueueImpl.safe_queue.mkQueue Nat 1).current_size →
      ∃ y s', (EnqueueImpl.safe_queue.mkQueue Nat 1).pop = some (y, s') ∧
        (EnqueueImpl.safe_queue.mkQueue Nat 1).pop_timed 3 0 = (Except.ok true, y, s')) ∧
    (¬ 0 < (EnqueueImpl.safe_queue.mkQueue Nat 1).current_size →
      (EnqueueImpl.safe_queue.mkQueue Nat 1).pop_timed 3 0
        = (Except.error QueueError.PopTimeout, 3, EnqueueImpl.safe_queue.mkQueue Nat 1))) :=
  ⟨by decide, C8_nonpositive_timeout (EnqueueImpl.safe_queue.mkQueue Nat 1) 7 3 0
    (by decide)⟩

/-- C10: in every well-formed state, the guarding predicates imply the
safety of the critical-section bodies: `current_size < maximum_capacity`
(the push guard) implies the capacity is positive — so the modular
reduction `(last + 1) % maximum_capacity` never divides by zero — and the
write index `last` is inside the buffer; `current_size > 0` (the pop
guard) likewise implies a positive capacity and that the read index
`first` is inside the buffer. -/
theorem C10_guard_implies_safety {T : Type} (s : EnqueueImpl.safe_queue T)
    (hw : s.WF) :
    (s.current_size < s.maximum_capacity →
      0 < s.maximum_capacity ∧ s.last < s.queue_data.length) ∧
    (0 < s.current_size →
      0 < s.maximum_capacity ∧ s.first < s.queue_data.length) := by
  obtain ⟨hlen, hsz, hz, hpos⟩ := hw
  constructor
  · intro h
    have hc : 0 < s.maximum_capacity := by omega
    obtain ⟨hf, hl⟩ := hpos hc
    refine ⟨hc, ?_⟩
    rw [hlen, hl]
    exact Nat.mod_lt _ hc
  · intro h
    have hc : 0 < s.maximum_capacity := by omega
    obtain ⟨hf, hl⟩ := hpos hc
    refine ⟨hc, ?_⟩
    rw [hlen]
    exact hf

theorem C10_guard_implies_safety_witness :
    (EnqueueImpl.safe_queue.mk [0] 1 0 0 0 : EnqueueImpl.safe_queue Nat).WF ∧
    (((EnqueueImpl.safe_queue.mk [0] 1 0 0 0 : EnqueueImpl.safe_queue Nat).current_size
        < (EnqueueImpl.safe_queue.mk [0] 1 0 0 0 :
            EnqueueImpl.safe_queue Nat).maximum_capacity →
      0 < (EnqueueImpl.safe_queue.mk [0] 1 0 0 0 :
            EnqueueImpl.safe_queue Nat).maximum_capacity ∧
      (EnqueueImpl.safe_queue.mk [0] 1 0 0 0 : EnqueueImpl.safe_queue Nat).last
        < (EnqueueImpl.safe_queue.mk [0] 1 0 0 0 :
            EnqueueImpl.safe_queue Nat).queue_data.length) ∧
    (0 < (EnqueueImpl.safe_queue.mk [0] 1 0 0 0 :
            EnqueueImpl.safe_queue Nat).current_size →
      0 < (EnqueueImpl.safe_queue.mk [0] 1 0 0 0 :
            EnqueueImpl.safe_queue Nat).maximum_capacity ∧
      (EnqueueImpl.safe_queue.mk [0] 1 0 0 0 : EnqueueImpl.safe_queue Nat).first
        < (EnqueueImpl.safe_queue.mk [0] 1 0 0 0 :
            EnqueueImpl.safe_queue Nat).queue_data.length)) :=
  ⟨by decide, C10_guard_implies_safety (EnqueueImpl.safe_queue.mk [0] 1 0 0 0)
    (by decide)⟩

/-- C9: the three duplicated queue implementations — `ThreadSafeQueue` in
queue.h, `safe_queue` in queue.cpp and `safe_queue` in
enqueue.h/enqueue.cpp — are behaviorally equivalent.  For every capacity
and every sequence of size/empty/full/push/pop calls (timed and untimed),
all three produce the same results (values, errors, blocking) and reach
the same final abstract state under the field-for-field correspondence of
their states. -/
theorem C9_three_implementations_equivalent {T : Type} [Inhabited T]
    (c : Nat) (ops : List (QOp T)) :
    (QueueCpp.safe_queue.run ops (QueueCpp.safe_queue.mkQueue T c)).1
        = (EnqueueImpl.safe_queue.run ops (EnqueueImpl.safe_queue.mkQueue T c)).1 ∧
    (QueueH.ThreadSafeQueue.run ops (QueueH.ThreadSafeQueue.mkQueue T c)).1
        = (EnqueueImpl.safe_queue.run ops (EnqueueImpl.safe_queue.mkQueue T c)).1 ∧
    ((QueueCpp.safe_queue.run ops (QueueCpp.safe_queue.mkQueue T c)).2).toEnqueue
        = (EnqueueImpl.safe_queue.run ops (EnqueueImpl.safe_queue.mkQueue T c)).2 ∧
    ((QueueH.ThreadSafeQueue.run ops (QueueH.ThreadSafeQueue.mkQueue T c)).2).toEnqueue
        = (EnqueueImpl.safe_queue.run ops (EnqueueImpl.safe_queue.mkQueue T c)).2 := by
  have hc : EnqueueImpl.safe_queue.run ops (EnqueueImpl.safe_queue.mkQueue T c)
      = ((QueueCpp.safe_queue.run ops (QueueCpp.safe_queue.mkQueue T c)).1,
         ((QueueCpp.safe_queue.run ops (QueueCpp.safe_queue.mkQueue T c)).2).toEnqueue) := by
    rw [← QueueCpp.safe_queue.cpp_mkQueue_toEnqueue]
    exact QueueCpp.safe_queue.cpp_run_toEnqueue ops _
  have hh : EnqueueImpl.safe_queue.run ops (EnqueueImpl.safe_queue.mkQueue T c)
      = ((QueueH.ThreadSafeQueue.run ops (QueueH.ThreadSafeQueue.mkQueue T c)).1,
         ((QueueH.ThreadSafeQueue.run ops (QueueH.ThreadSafeQueue.mkQueue T c)).2).toEnqueue) := by
    rw [← QueueH.ThreadSafeQueue.tsq_mkQueue_toEnqueue]
    exact QueueH.ThreadSafeQueue.tsq_run_toEnqueue ops _
  refine ⟨?_, ?_, ?_, ?_⟩
  · rw [hc]
  · rw [hh]
  · rw [hc]
  · rw [hh]
